import Mathlib

/-!
Verification development for a tender-aggregation pipeline: a shallow
embedding of the scoring engine (filters/tender_filter.py), the monetary
parser and pagination cutoff (scrapers/base.py and the NIC-portal
scrapers), and the dedup/merge step (scrapers/hsl_scraper.py), together
with theorems settling the specification's claims about them.

Strings are modelled as lists of characters; Python datetimes as natural
numbers on an abstract timeline; rupee amounts as rationals.
-/

namespace Gem

/-- Model of Python str.lower (ASCII, which is all the data contains). -/
def pyLower (s : List Char) : List Char := s.map Char.toLower

/-- Model of Python str.strip (drop whitespace at both ends). -/
def pyStrip (s : List Char) : List Char :=
  ((s.dropWhile Char.isWhitespace).reverse.dropWhile Char.isWhitespace).reverse

/-- Model of " ".join(parts). -/
def joinSp (parts : List (List Char)) : List Char := List.intercalate [' '] parts

/-- Auxiliary for string replace: when `skip > 0` we are inside an already
replaced occurrence and copy nothing; at `skip = 0` we test for the pattern. -/
def replaceStrAux (pat rep : List Char) : Nat → List Char → List Char
  | _, [] => []
  | Nat.succ k, _ :: rest => replaceStrAux pat rep k rest
  | 0, c :: rest =>
    if pat ≠ [] ∧ pat.isPrefixOf (c :: rest) then
      rep ++ replaceStrAux pat rep (pat.length - 1) rest
    else
      c :: replaceStrAux pat rep 0 rest

/-- Model of Python str.replace: left-to-right, non-overlapping. -/
def replaceStr (pat rep s : List Char) : List Char :=
  replaceStrAux pat rep 0 s

/-- Value of a digit string read in base 10. -/
def natOfDigits (s : List Char) : Nat :=
  s.foldl (fun acc c => acc * 10 + (c.toNat - '0'.toNat)) 0

/-- Model of Python float() restricted to strings of digits and dots (the
only shape it is applied to in parse_inr): defined iff there is at most one
dot and at least one digit, mirroring which inputs raise ValueError. -/
def pyFloatOfDigits (s : List Char) : Option ℚ :=
  if s.count '.' > 1 then none
  else if s.filter Char.isDigit = [] then none
  else
    some ((natOfDigits (s.takeWhile fun c => c ≠ '.') : ℚ) +
      (natOfDigits ((s.dropWhile fun c => c ≠ '.').drop 1) : ℚ) /
        (10 : ℚ) ^ ((s.dropWhile fun c => c ≠ '.').drop 1).length)

/-- Word character in the sense of the regex \w class (ASCII). -/
def isWordChar (c : Char) : Bool := c.isAlphanum || c == '_'

/-- Character at index `i`, if any. -/
def charAt (s : List Char) (i : Nat) : Option Char := (s.drop i).head?

/-- Whether the character just before position `p` is a word character. -/
def prevIsWord (s : List Char) (p : Nat) : Bool :=
  match p with
  | 0 => false
  | Nat.succ q => (charAt s q).elim false isWordChar

/-- Whether the character at position `p` is a word character. -/
def curIsWord (s : List Char) (p : Nat) : Bool :=
  (charAt s p).elim false isWordChar

/-- Regex \b: a word boundary sits at `p` iff exactly one side is a word
character (positions outside the string count as non-word). -/
def boundaryAt (s : List Char) (p : Nat) : Bool :=
  prevIsWord s p != curIsWord s p

/-- The literal `kw` occurs at position `p` of `s`. -/
def matchAt (s kw : List Char) (p : Nat) : Bool :=
  kw.isPrefixOf (s.drop p)

/-- Model of re.search(r"\b" + re.escape(kw) + r"\b", s): the escaped
keyword is a literal, bracketed by word boundaries. -/
def wordBoundarySearch (kw s : List Char) : Bool :=
  (List.range (s.length + 1)).any fun p =>
    matchAt s kw p && boundaryAt s p && boundaryAt s (p + kw.length)

/-- Canonical tender record (scrapers/models.py). Dates are points on an
abstract day timeline; budgets are rupee amounts. -/
structure Tender where
  tender_id : List Char := []
  title : List Char := []
  portal : List Char := []
  department : List Char := []
  location : List Char := []
  budget_min : Option ℚ := none
  budget_max : Option ℚ := none
  published_date : Option Nat := none
  deadline : Option Nat := none
  category : List Char := []
  description : List Char := []
  match_score : Nat := 0
  matched_keywords : List (List Char) := []
  budget_in_range : Option Bool := none
  location_match : Bool := false
  deriving DecidableEq

/-- Contractor profile (config.py / profile dict): keyword lists and the
budget range, whose min defaults to 0 and whose max defaults to unbounded
(float("inf"), modelled as `none`). -/
structure Profile where
  work_keywords : List (List Char) := []
  exclude_keywords : List (List Char) := []
  locations : List (List Char) := []
  budget_min : ℚ := 0
  budget_max : Option ℚ := none
  deriving DecidableEq

/-- Model of Python "needle in hay" (substring containment). -/
def strContains (needle : List Char) : List Char → Bool
  | [] => needle.isEmpty
  | c :: rest => needle.isPrefixOf (c :: rest) || strContains needle rest

/-- filters/tender_filter.py, _normalise: lowercase then strip. -/
def normalise (text : List Char) : List Char := pyStrip (pyLower text)

/-- filters/tender_filter.py, _contains_any: keywords found in the text as
case-insensitive substrings, in keyword-list order. -/
def containsAny (text : List Char) (keywords : List (List Char)) : List (List Char) :=
  keywords.filter fun kw => strContains (pyLower kw) (normalise text)

/-- filters/tender_filter.py, _contains_any_word: keywords that occur as
whole words/phrases (regex word boundaries) in the text, case-insensitive. -/
def containsAnyWord (text : List Char) (keywords : List (List Char)) : List (List Char) :=
  keywords.filter fun kw => wordBoundarySearch (pyLower kw) (normalise text)

/-- score_tender: the search corpus = title, description, category,
department joined by spaces. -/
def searchCorpus (t : Tender) : List Char :=
  joinSp [t.title, t.description, t.category, t.department]

/-- score_tender: the narrower corpus used for location matching. -/
def locationCorpus (t : Tender) : List Char :=
  joinSp [t.location, t.department, t.title]

/-- score_tender: exclude-keyword hits over the search corpus. -/
def excludeHits (t : Tender) (p : Profile) : List (List Char) :=
  containsAny (searchCorpus t) p.exclude_keywords

/-- score_tender: work-keyword hits over the search corpus. -/
def workHits (t : Tender) (p : Profile) : List (List Char) :=
  containsAny (searchCorpus t) p.work_keywords

/-- score_tender: location hits over the location corpus. -/
def locationHits (t : Tender) (p : Profile) : List (List Char) :=
  containsAnyWord (locationCorpus t) p.locations

/-- Tag "EXCLUDED:" ++ kw attached to each exclude hit. -/
def excludedTag (kw : List Char) : List Char := "EXCLUDED:".data ++ kw

/-- Tag "LOC:" ++ kw attached to each location hit. -/
def locTag (kw : List Char) : List Char := "LOC:".data ++ kw

/-- score_tender: +40 for any work-keyword hit plus +5 per extra hit capped
at 4 extras (score += 40; bonus = min(len(work_hits) - 1, 4) * 5). -/
def workScore (t : Tender) (p : Profile) : Nat :=
  if workHits t p = [] then 0 else 40 + min ((workHits t p).length - 1) 4 * 5

/-- score_tender: +20 for any location hit. -/
def locationScore (t : Tender) (p : Profile) : Nat :=
  if locationHits t p = [] then 0 else 20

/-- x ≤ m where m = none models the profile's default unbounded ceiling
(float("inf")). -/
def leInf (x : ℚ) (m : Option ℚ) : Bool :=
  match m with
  | none => true
  | some y => decide (x ≤ y)

/-- score_tender, budget branch: the score increment together with the
budget_in_range flag. Upper bound known: +15 iff min ≤ upper ≤ max; only a
lower bound: +8 iff lower ≤ max; neither: no change and flag unknown. -/
def budgetEval (t : Tender) (p : Profile) : Nat × Option Bool :=
  match t.budget_max with
  | some u =>
    let in_range := decide (p.budget_min ≤ u) && leInf u p.budget_max
    (if in_range then 15 else 0, some in_range)
  | none =>
    match t.budget_min with
    | some l =>
      let in_range := leInf l p.budget_max
      (if in_range then 8 else 0, some in_range)
    | none => (0, none)

/-- score_tender: +15 for the two defence-speciality portals. -/
def portalScore (t : Tender) : Nat :=
  if t.portal = "HSL (Hindustan Shipyard)".data ∨ t.portal = "defproc (Defence)".data
  then 15 else 0

/-- filters/tender_filter.py, score_tender: exclude check first (hard
disqualifier, early return), then work keywords, location, budget, portal
bonus, the defensive floor at 0, and the final clamp to 100. -/
def score_tender (t : Tender) (p : Profile) : Tender :=
  if excludeHits t p ≠ [] then
    { t with
      match_score := 0,
      matched_keywords := (excludeHits t p).map excludedTag }
  else
    let score := workScore t p + locationScore t p + (budgetEval t p).1 + portalScore t
    let score := if workHits t p = [] ∧ locationHits t p = [] then max score 0 else score
    { t with
      match_score := min score 100,
      matched_keywords := workHits t p ++ (locationHits t p).map locTag,
      location_match := decide (locationHits t p ≠ []),
      budget_in_range := (budgetEval t p).2 }

/-- Deadline comparison used by the sort key: a missing deadline is
datetime.max, larger than every real date. -/
def dlLE (a b : Option Nat) : Bool :=
  match a, b with
  | _, none => true
  | none, some _ => false
  | some x, some y => decide (x ≤ y)

/-- filter_tenders sort order: the Python key (-match_score, deadline or
datetime.max) compared lexicographically. -/
def tenderLE (a b : Tender) : Prop :=
  b.match_score < a.match_score ∨
    (a.match_score = b.match_score ∧ dlLE a.deadline b.deadline = true)

instance : DecidableRel tenderLE := fun a b => by
  unfold tenderLE; infer_instance

/-- The pair determining a tender's position: two tenders are tied in the
sort exactly when their keys are equal. -/
def sortKey (t : Tender) : Nat × Option Nat := (t.match_score, t.deadline)

/-- filters/tender_filter.py, filter_tenders: score everything, keep
tenders at or above min_score, stable-sort by score descending with
deadline-ascending tiebreak (Python list.sort is stable; insertion sort
into the first admissible slot realises the same stable order). -/
def filter_tenders (tenders : List Tender) (p : Profile) (min_score : Nat := 20) :
    List Tender :=
  let scored := tenders.map fun t => score_tender t p
  let filtered := scored.filter fun t => decide (min_score ≤ t.match_score)
  filtered.insertionSort tenderLE

/-- scrapers/base.py, parse_inr: the cleaning pass — strip, remove commas,
the rupee sign and "Rs.", strip again. -/
def cleanInr (text : List Char) : List Char :=
  pyStrip (replaceStr "Rs.".data [] (replaceStr "₹".data [] (replaceStr ",".data [] (pyStrip text))))

/-- The characters parse_inr keeps when it collects the numeric portion. -/
def digitsAndDots (s : List Char) : List Char :=
  s.filter fun c => c.isDigit || c == '.'

/-- scrapers/base.py, parse_inr: extract a rupee amount. Empty input fails;
otherwise clean, then multiply the digit/dot residue by 1,00,00,000 when
"crore"/"cr" appears (case-insensitive), by 1,00,000 when "lakh"/"lac"
appears, else parse the residue directly. Any float failure yields none
(the Python ValueError is caught). -/
def parse_inr (text : List Char) : Option ℚ :=
  if text = [] then none
  else
    let t := cleanInr text
    let tl := pyLower t
    if strContains "crore".data tl || strContains "cr".data tl then
      match pyFloatOfDigits (digitsAndDots t) with
      | none => none
      | some num => some (num * 10000000)
    else if strContains "lakh".data tl || strContains "lac".data tl then
      match pyFloatOfDigits (digitsAndDots t) with
      | none => none
      | some num => some (num * 100000)
    else
      pyFloatOfDigits (digitsAndDots t)

/-- Pagination cutoff (cppp_scraper.py / defproc_scraper.py / hsl_scraper.py):
per tender, `t.published_date or t.deadline`. -/
def pubOrDeadline (t : Tender) : Option Nat :=
  match t.published_date with
  | some d => some d
  | none => t.deadline

/-- The list comprehension `[t.published_date or t.deadline for t in batch
if (t.published_date or t.deadline)]`. -/
def batchDates (batch : List Tender) : List Nat :=
  batch.filterMap pubOrDeadline

/-- The cutoff test `if dates and min(...) < self.cutoff_date`. -/
def cutoffHit (cutoff : Nat) (batch : List Tender) : Bool :=
  match batchDates batch with
  | [] => false
  | d :: ds => decide (ds.foldl min d < cutoff)

/-- The NIC-portal pagination loop (CpppScraper.scrape and its twins),
abstracted over the per-page parse results: starting at page `i`, run while
`i ≤ maxPages`; an exhausted or failing fetch (end of the page list) or an
empty batch stops with what was accumulated; a parsed batch is always
appended, and the loop breaks right after appending when the cutoff test
fires on that batch. -/
def scrapePages (maxPages cutoff : Nat) : Nat → List (List Tender) → List Tender
  | _, [] => []
  | i, b :: rest =>
    if maxPages < i then []
    else if b = [] then []
    else if cutoffHit cutoff b then b
    else b ++ scrapePages maxPages cutoff (i + 1) rest

/-- Propositional form of `leInf`: x ≤ m with m = none the unbounded
ceiling. -/
def leInfP (x : ℚ) (m : Option ℚ) : Prop :=
  match m with
  | none => True
  | some y => x ≤ y

/-- Dedup key (HslScraper.scrape, GemScraper): `t.tender_id or t.title`. -/
def dedupKey (t : Tender) : List Char :=
  if t.tender_id ≠ [] then t.tender_id else t.title

/-- The dedup loop of HslScraper.scrape with its running `seen` set. -/
def dedupGo (seen : List (List Char)) : List Tender → List Tender
  | [] => []
  | t :: rest =>
    if dedupKey t ∈ seen then dedupGo seen rest
    else t :: dedupGo (dedupKey t :: seen) rest

/-- Merge/dedup of tender lists: first-seen-wins, order-preserving. -/
def dedupTenders (ts : List Tender) : List Tender := dedupGo [] ts

/-- Sample profile: three work keywords and one location keyword. -/
def exProfile : Profile :=
  { work_keywords := ["alpha".data, "beta".data, "gamma".data],
    locations := ["vizag".data] }

/-- Sample tender scoring 50 (three work hits), deadline D2 = 2. -/
def tenderA : Tender :=
  { tender_id := "A".data, title := "alpha beta gamma".data, deadline := some 2 }

/-- Sample tender scoring 80 (two work hits, location, budget), deadline 1. -/
def tenderB : Tender :=
  { tender_id := "B".data, title := "alpha beta".data, location := "vizag".data,
    budget_max := some 10, deadline := some 1 }

/-- Sample tender scoring 50 (three work hits), deadline D1 = 1. -/
def tenderC : Tender :=
  { tender_id := "C".data, title := "alpha beta gamma".data, deadline := some 1 }

/-- Sample profile with an exclude keyword. -/
def exclProfile : Profile :=
  { work_keywords := ["painting".data], exclude_keywords := ["underwater".data] }

/-- Sample tender whose corpus contains the exclude keyword. -/
def exclTender : Tender := { title := "underwater painting".data }

/-- A second record carrying the same tender_id as tenderA. -/
def dupTender : Tender := { tender_id := "A".data, title := "other notice".data }

/-- Sample page batch whose only date precedes the sample cutoff 10. -/
def oldBatch : List Tender :=
  [{ tender_id := "P1".data, title := "old work".data, published_date := some 5 }]

/-- Sample page batch dated after the sample cutoff 10. -/
def freshBatch : List Tender :=
  [{ tender_id := "P2".data, title := "fresh work".data, published_date := some 20 }]

/-- Profile listing the same work keyword twice. -/
def dupKwProfile : Profile :=
  { work_keywords := ["painting".data, "painting".data] }

/-- Tender whose corpus matches that keyword once. -/
def dupKwTender : Tender := { title := "painting work".data }

/-- Tender published after the sample cutoff 10 but whose deadline
precedes it. -/
def lateTender : Tender :=
  { tender_id := "P3".data, title := "late work".data,
    published_date := some 20, deadline := some 2 }

/-- One-tender batch built from lateTender. -/
def lateBatch : List Tender := [lateTender]

theorem leInf_iff (x : ℚ) (m : Option ℚ) : leInf x m = true ↔ leInfP x m := by
  cases m <;> simp [leInf, leInfP]

theorem score_tender_of_excluded (t : Tender) (p : Profile) (h : excludeHits t p ≠ []) :
    score_tender t p =
      { t with
        match_score := 0,
        matched_keywords := (excludeHits t p).map excludedTag } := by
  unfold score_tender
  rw [if_pos h]

theorem score_tender_of_not_excluded (t : Tender) (p : Profile) (h : excludeHits t p = []) :
    score_tender t p =
      { t with
        match_score :=
          min (workScore t p + locationScore t p + (budgetEval t p).1 + portalScore t) 100,
        matched_keywords := workHits t p ++ (locationHits t p).map locTag,
        location_match := decide (locationHits t p ≠ []),
        budget_in_range := (budgetEval t p).2 } := by
  unfold score_tender
  rw [if_neg (not_not_intro h)]
  simp only [Nat.max_zero, ite_self]

/-- Claim C1: for every tender and profile, after score_tender the
relevance score lies in [0,100]. -/
theorem score_tender_score_mem_Icc (t : Tender) (p : Profile) :
    0 ≤ (score_tender t p).match_score ∧ (score_tender t p).match_score ≤ 100 := by
  refine ⟨Nat.zero_le _, ?_⟩
  by_cases h : excludeHits t p = []
  · rw [score_tender_of_not_excluded t p h]
    exact Nat.min_le_right _ _
  · rw [score_tender_of_excluded t p h]
    norm_num

/-- Claim C2: any exclude-keyword hit in the corpus forces score 0, makes
the match tags exactly one EXCLUDED:kw per hit, and applies no other rule —
the location flag and budget flag are left untouched. -/
theorem score_tender_excluded_rule (t : Tender) (p : Profile)
    (h : excludeHits t p ≠ []) :
    (score_tender t p).match_score = 0 ∧
    (score_tender t p).matched_keywords = (excludeHits t p).map excludedTag ∧
    (score_tender t p).budget_in_range = t.budget_in_range ∧
    (score_tender t p).location_match = t.location_match := by
  rw [score_tender_of_excluded t p h]
  exact ⟨rfl, rfl, rfl, rfl⟩

theorem score_tender_excluded_rule_witness :
    excludeHits exclTender exclProfile ≠ [] ∧
    ((score_tender exclTender exclProfile).match_score = 0 ∧
     (score_tender exclTender exclProfile).matched_keywords =
       (excludeHits exclTender exclProfile).map excludedTag ∧
     (score_tender exclTender exclProfile).budget_in_range = exclTender.budget_in_range ∧
     (score_tender exclTender exclProfile).location_match = exclTender.location_match) :=
  ⟨by decide, score_tender_excluded_rule exclTender exclProfile (by decide)⟩

/-- Claim C3, amended: absent an exclusion, the work-keyword contribution
is exactly 40 + 5 * min(extra_hits, 4) when at least one work keyword
matches, where extra_hits counts the matching keyword-list entries beyond
the first — duplicate list entries count separately, not distinct hits —
and exactly 0 when none matches. -/
theorem work_keyword_contribution (t : Tender) (p : Profile)
    (h : excludeHits t p = []) :
    (workHits t p ≠ [] →
      (score_tender t p).match_score =
        min (40 + 5 * min ((workHits t p).length - 1) 4 +
          locationScore t p + (budgetEval t p).1 + portalScore t) 100) ∧
    (workHits t p = [] →
      (score_tender t p).match_score =
        min (locationScore t p + (budgetEval t p).1 + portalScore t) 100) := by
  rw [score_tender_of_not_excluded t p h]
  constructor
  · intro hw
    simp [workScore, hw, Nat.mul_comm]
  · intro hw
    simp [workScore, hw]

theorem work_keyword_contribution_witness :
    excludeHits tenderA exProfile = [] ∧
    workHits tenderA exProfile ≠ [] ∧
    (score_tender tenderA exProfile).match_score =
      min (40 + 5 * min ((workHits tenderA exProfile).length - 1) 4 +
        locationScore tenderA exProfile + (budgetEval tenderA exProfile).1 +
        portalScore tenderA) 100 :=
  ⟨by decide, by decide,
    (work_keyword_contribution tenderA exProfile (by decide)).1 (by decide)⟩

/-- Claim C3, counterexample to the frozen distinct-hits reading: with the
work keyword listed twice and that keyword hitting the corpus once, the
code scores 45 (it counts keyword-list entries: 40 + min(2-1,4)*5), while
the formula over distinct hits (one distinct hit, zero extras) yields 40 —
no other rule contributes here. -/
theorem work_keyword_distinct_counterexample :
    excludeHits dupKwTender dupKwProfile = [] ∧
    (workHits dupKwTender dupKwProfile).dedup.length = 1 ∧
    locationScore dupKwTender dupKwProfile = 0 ∧
    (budgetEval dupKwTender dupKwProfile).1 = 0 ∧
    portalScore dupKwTender = 0 ∧
    (score_tender dupKwTender dupKwProfile).match_score = 45 ∧
    (score_tender dupKwTender dupKwProfile).match_score ≠
      min (40 + 5 * min ((workHits dupKwTender dupKwProfile).dedup.length - 1) 4 +
        locationScore dupKwTender dupKwProfile +
        (budgetEval dupKwTender dupKwProfile).1 + portalScore dupKwTender) 100 := by
  refine ⟨by decide, by decide, by decide, by decide, by decide, by decide, by decide⟩

/-- Claim C5: absent an exclusion, a known upper budget bound adds +15 iff
profile.min ≤ upper ≤ profile.max and budget_in_range is set to that
boolean; with only a lower bound, +8 iff lower ≤ profile.max, flag set
accordingly; with neither, budget_in_range stays unknown and the score is
unchanged. -/
theorem budget_rule (t : Tender) (p : Profile) (h : excludeHits t p = []) :
    (∀ u, t.budget_max = some u →
      ∃ b, (score_tender t p).budget_in_range = some b ∧
        (b = true ↔ p.budget_min ≤ u ∧ leInfP u p.budget_max) ∧
        (score_tender t p).match_score =
          min (workScore t p + locationScore t p + (if b then 15 else 0) + portalScore t) 100) ∧
    (∀ l, t.budget_max = none → t.budget_min = some l →
      ∃ b, (score_tender t p).budget_in_range = some b ∧
        (b = true ↔ leInfP l p.budget_max) ∧
        (score_tender t p).match_score =
          min (workScore t p + locationScore t p + (if b then 8 else 0) + portalScore t) 100) ∧
    (t.budget_max = none → t.budget_min = none →
      (score_tender t p).budget_in_range = none ∧
      (score_tender t p).match_score =
        min (workScore t p + locationScore t p + portalScore t) 100) := by
  rw [score_tender_of_not_excluded t p h]
  refine ⟨?_, ?_, ?_⟩
  · intro u hu
    refine ⟨decide (p.budget_min ≤ u) && leInf u p.budget_max, ?_, ?_, ?_⟩
    · simp [budgetEval, hu]
    · simp [leInf_iff, decide_eq_true_iff]
    · simp [budgetEval, hu]
  · intro l hu hl
    refine ⟨leInf l p.budget_max, ?_, ?_, ?_⟩
    · simp [budgetEval, hu, hl]
    · simp [leInf_iff]
    · simp [budgetEval, hu, hl]
  · intro hu hl
    constructor
    · simp [budgetEval, hu, hl]
    · simp [budgetEval, hu, hl]

theorem budget_rule_witness :
    excludeHits tenderB exProfile = [] ∧
    tenderB.budget_max = some 10 ∧
    (∃ b, (score_tender tenderB exProfile).budget_in_range = some b ∧
      (b = true ↔ exProfile.budget_min ≤ 10 ∧ leInfP 10 exProfile.budget_max) ∧
      (score_tender tenderB exProfile).match_score =
        min (workScore tenderB exProfile + locationScore tenderB exProfile +
          (if b then 15 else 0) + portalScore tenderB) 100) :=
  ⟨by decide, by decide,
    (budget_rule tenderB exProfile (by decide)).1 10 (by decide)⟩

/-- Claim C4: location matching is case-insensitive whole-word matching:
"AP" hits standalone "AP" and "(AP)" but not "weapons" or "capacity"; any
hit adds +20, raises the location flag, and tags each hit LOC:kw. -/
theorem location_rule :
    (containsAnyWord "Roads in AP region".data ["AP".data] = ["AP".data] ∧
     containsAnyWord "Depot (AP) works".data ["AP".data] = ["AP".data] ∧
     containsAnyWord "weapons handling".data ["AP".data] = [] ∧
     containsAnyWord "capacity building".data ["AP".data] = []) ∧
    ∀ t p, excludeHits t p = [] → locationHits t p ≠ [] →
      (score_tender t p).location_match = true ∧
      (score_tender t p).matched_keywords =
        workHits t p ++ (locationHits t p).map locTag ∧
      (score_tender t p).match_score =
        min (workScore t p + 20 + (budgetEval t p).1 + portalScore t) 100 := by
  refine ⟨⟨by decide, by decide, by decide, by decide⟩, ?_⟩
  intro t p h hl
  rw [score_tender_of_not_excluded t p h]
  refine ⟨by simp [hl], rfl, ?_⟩
  simp [locationScore, hl]

theorem location_rule_witness :
    excludeHits tenderB exProfile = [] ∧
    locationHits tenderB exProfile ≠ [] ∧
    ((score_tender tenderB exProfile).location_match = true ∧
     (score_tender tenderB exProfile).matched_keywords =
       workHits tenderB exProfile ++ (locationHits tenderB exProfile).map locTag ∧
     (score_tender tenderB exProfile).match_score =
       min (workScore tenderB exProfile + 20 + (budgetEval tenderB exProfile).1 +
         portalScore tenderB) 100) :=
  ⟨by decide, by decide, location_rule.2 tenderB exProfile (by decide) (by decide)⟩

theorem dlLE_refl (a : Option Nat) : dlLE a a = true := by
  cases a <;> simp [dlLE]

theorem dlLE_total (a b : Option Nat) : dlLE a b = true ∨ dlLE b a = true := by
  cases a <;> cases b <;> simp [dlLE] <;> exact Nat.le_total _ _

theorem dlLE_trans {a b c : Option Nat} (h₁ : dlLE a b = true) (h₂ : dlLE b c = true) :
    dlLE a c = true := by
  cases a <;> cases b <;> cases c <;> simp_all [dlLE] <;> omega

instance : IsTotal Tender tenderLE := by
  constructor
  intro a b
  unfold tenderLE
  rcases Nat.lt_trichotomy a.match_score b.match_score with h | h | h
  · exact Or.inr (Or.inl h)
  · rcases dlLE_total a.deadline b.deadline with hd | hd
    · exact Or.inl (Or.inr ⟨h, hd⟩)
    · exact Or.inr (Or.inr ⟨h.symm, hd⟩)
  · exact Or.inl (Or.inl h)

instance : IsTrans Tender tenderLE := by
  constructor
  intro a b c hab hbc
  unfold tenderLE at *
  rcases hab with hab | ⟨hab, hab'⟩ <;> rcases hbc with hbc | ⟨hbc, hbc'⟩
  · exact Or.inl (hbc.trans hab)
  · exact Or.inl (by omega)
  · exact Or.inl (by omega)
  · exact Or.inr ⟨hab.trans hbc, dlLE_trans hab' hbc'⟩

theorem tenderLE_of_sortKey_eq {a b : Tender} (h : sortKey a = sortKey b) :
    tenderLE a b := by
  unfold sortKey at h
  obtain ⟨h₁, h₂⟩ := Prod.mk.injEq .. ▸ h
  exact Or.inr ⟨h₁, h₂ ▸ dlLE_refl a.deadline⟩

theorem filter_sortKey_orderedInsert (x : Tender) (l : List Tender) (k : Nat × Option Nat) :
    (l.orderedInsert tenderLE x).filter (fun y => decide (sortKey y = k)) =
      if sortKey x = k then x :: l.filter (fun y => decide (sortKey y = k))
      else l.filter (fun y => decide (sortKey y = k)) := by
  induction l with
  | nil =>
    simp only [List.orderedInsert_nil, List.filter]
    by_cases hx : sortKey x = k <;> simp [hx]
  | cons y ys ih =>
    by_cases hxy : tenderLE x y
    · rw [List.orderedInsert, if_pos hxy, List.filter_cons]
      by_cases hx : sortKey x = k <;> simp [hx]
    · have hne : sortKey x ≠ sortKey y := fun he => hxy (tenderLE_of_sortKey_eq he)
      rw [List.orderedInsert, if_neg hxy, List.filter_cons, List.filter_cons]
      by_cases hyk : sortKey y = k
      · have hxk : sortKey x ≠ k := fun hx => hne (hx.trans hyk.symm)
        simp [hyk, hxk, ih]
      · by_cases hxk : sortKey x = k <;> simp [hyk, hxk, ih]

theorem filter_sortKey_insertionSort (l : List Tender) (k : Nat × Option Nat) :
    (l.insertionSort tenderLE).filter (fun y => decide (sortKey y = k)) =
      l.filter (fun y => decide (sortKey y = k)) := by
  induction l with
  | nil => rfl
  | cons x xs ih =>
    rw [List.insertionSort, filter_sortKey_orderedInsert, List.filter_cons]
    by_cases hx : sortKey x = k <;> simp [hx, ih]

/-- Claim C6: filter_tenders returns exactly the scored tenders at or above
min_score (as a permutation), sorted by score descending with ties broken
by deadline ascending and missing deadlines last, stably (for every key,
the equal-key tenders appear exactly as in the filtered input); on the
spec's example — scores [50, 80, 50], deadlines [2, 1, 1] — the output
order is 80, then 50 with deadline 1, then 50 with deadline 2. -/
theorem filter_tenders_spec :
    (∀ (ts : List Tender) (p : Profile) (m : Nat),
      (filter_tenders ts p m).Perm
        ((ts.map fun t => score_tender t p).filter fun t => decide (m ≤ t.match_score)) ∧
      (filter_tenders ts p m).Sorted tenderLE ∧
      ∀ k : Nat × Option Nat,
        (filter_tenders ts p m).filter (fun y => decide (sortKey y = k)) =
          ((ts.map fun t => score_tender t p).filter fun t =>
            decide (m ≤ t.match_score)).filter (fun y => decide (sortKey y = k))) ∧
    ((([tenderA, tenderB, tenderC].map fun t =>
        (score_tender t exProfile).match_score) = [50, 80, 50]) ∧
     (filter_tenders [tenderA, tenderB, tenderC] exProfile 20).map
        (fun t => (t.tender_id, t.match_score, t.deadline)) =
      [("B".data, 80, some 1), ("C".data, 50, some 1), ("A".data, 50, some 2)]) := by
  constructor
  · intro ts p m
    refine ⟨List.perm_insertionSort tenderLE _, List.sorted_insertionSort tenderLE _, ?_⟩
    intro k
    exact filter_sortKey_insertionSort _ k
  · exact ⟨by decide, by decide⟩

theorem parse_inr_crore_branch (s : List Char) (hs : s ≠ [])
    (h : (strContains "crore".data (pyLower (cleanInr s)) ||
          strContains "cr".data (pyLower (cleanInr s))) = true) :
    parse_inr s =
      (pyFloatOfDigits (digitsAndDots (cleanInr s))).map fun q => q * 10000000 := by
  unfold parse_inr
  rw [if_neg hs]
  simp only [h, if_true]
  cases pyFloatOfDigits (digitsAndDots (cleanInr s)) <;> simp

theorem parse_inr_lakh_branch (s : List Char) (hs : s ≠ [])
    (hcr : (strContains "crore".data (pyLower (cleanInr s)) ||
            strContains "cr".data (pyLower (cleanInr s))) = false)
    (h : (strContains "lakh".data (pyLower (cleanInr s)) ||
          strContains "lac".data (pyLower (cleanInr s))) = true) :
    parse_inr s =
      (pyFloatOfDigits (digitsAndDots (cleanInr s))).map fun q => q * 100000 := by
  unfold parse_inr
  rw [if_neg hs]
  simp only [hcr, h, if_true, Bool.false_eq_true, if_false]
  cases pyFloatOfDigits (digitsAndDots (cleanInr s)) <;> simp

theorem parse_inr_plain_branch (s : List Char) (hs : s ≠ [])
    (hcr : (strContains "crore".data (pyLower (cleanInr s)) ||
            strContains "cr".data (pyLower (cleanInr s))) = false)
    (hl : (strContains "lakh".data (pyLower (cleanInr s)) ||
           strContains "lac".data (pyLower (cleanInr s))) = false) :
    parse_inr s = pyFloatOfDigits (digitsAndDots (cleanInr s)) := by
  unfold parse_inr
  rw [if_neg hs]
  simp only [hcr, hl, Bool.false_eq_true, if_false]

theorem pyFloatOfDigits_eq (s : List Char) (ip fp k : Nat)
    (h1 : s.count '.' ≤ 1) (h2 : s.filter Char.isDigit ≠ [])
    (hip : natOfDigits (s.takeWhile fun c => c ≠ '.') = ip)
    (hfp : natOfDigits ((s.dropWhile fun c => c ≠ '.').drop 1) = fp)
    (hk : ((s.dropWhile fun c => c ≠ '.').drop 1).length = k) :
    pyFloatOfDigits s = some ((ip : ℚ) + (fp : ℚ) / (10 : ℚ) ^ k) := by
  unfold pyFloatOfDigits
  rw [if_neg (by omega), if_neg h2, hip, hfp, hk]

/-- Claim C7: the monetary parser (total, Option-valued — the Python
ValueError is caught, so it never raises) strips separators and symbols,
parses the cleaned digit/decimal residue directly when no multiplier word
is present (none on a non-numeric residue), applies the lakh multiplier to
the numeric portion, and meets the spec's four examples. -/
theorem parse_inr_spec :
    (∀ s : List Char, s ≠ [] →
      strContains "crore".data (pyLower (cleanInr s)) = false →
      strContains "cr".data (pyLower (cleanInr s)) = false →
      strContains "lakh".data (pyLower (cleanInr s)) = false →
      strContains "lac".data (pyLower (cleanInr s)) = false →
      parse_inr s = pyFloatOfDigits (digitsAndDots (cleanInr s))) ∧
    (∀ s : List Char, s ≠ [] →
      strContains "crore".data (pyLower (cleanInr s)) = false →
      strContains "cr".data (pyLower (cleanInr s)) = false →
      strContains "lakh".data (pyLower (cleanInr s)) = true →
      parse_inr s =
        (pyFloatOfDigits (digitsAndDots (cleanInr s))).map fun q => q * 100000) ∧
    parse_inr "₹3,50,000".data = some 350000 ∧
    parse_inr "3.5 Lakh".data = some 350000 ∧
    parse_inr "1.2 Crore".data = some 12000000 ∧
    parse_inr "not a number".data = none := by
  refine ⟨?_, ?_, ?_, ?_, ?_, ?_⟩
  · intro s hs h₁ h₂ h₃ h₄
    exact parse_inr_plain_branch s hs (by rw [h₁, h₂]; rfl) (by rw [h₃, h₄]; rfl)
  · intro s hs h₁ h₂ h₃
    exact parse_inr_lakh_branch s hs (by rw [h₁, h₂]; rfl) (by rw [h₃]; rfl)
  · rw [parse_inr_plain_branch _ (by decide) (by decide) (by decide),
      show digitsAndDots (cleanInr "₹3,50,000".data) = "350000".data from by decide,
      pyFloatOfDigits_eq _ 350000 0 0 (by decide) (by decide) (by decide) (by decide)
        (by decide)]
    norm_num
  · rw [parse_inr_lakh_branch _ (by decide) (by decide) (by decide),
      show digitsAndDots (cleanInr "3.5 Lakh".data) = "3.5".data from by decide,
      pyFloatOfDigits_eq _ 3 5 1 (by decide) (by decide) (by decide) (by decide)
        (by decide)]
    simp only [Option.map_some']
    norm_num
  · rw [parse_inr_crore_branch _ (by decide) (by decide),
      show digitsAndDots (cleanInr "1.2 Crore".data) = "1.2".data from by decide,
      pyFloatOfDigits_eq _ 1 2 1 (by decide) (by decide) (by decide) (by decide)
        (by decide)]
    simp only [Option.map_some']
    norm_num
  · rw [parse_inr_plain_branch _ (by decide) (by decide) (by decide),
      show digitsAndDots (cleanInr "not a number".data) = [] from by decide]
    decide

theorem parse_inr_spec_witness :
    "3.5 Lakh".data ≠ [] ∧
    strContains "crore".data (pyLower (cleanInr "3.5 Lakh".data)) = false ∧
    strContains "cr".data (pyLower (cleanInr "3.5 Lakh".data)) = false ∧
    strContains "lakh".data (pyLower (cleanInr "3.5 Lakh".data)) = true ∧
    parse_inr "3.5 Lakh".data =
      (pyFloatOfDigits (digitsAndDots (cleanInr "3.5 Lakh".data))).map fun q => q * 100000 :=
  ⟨by decide, by decide, by decide, by decide,
    parse_inr_spec.2.1 "3.5 Lakh".data (by decide) (by decide) (by decide) (by decide)⟩

theorem foldl_min_lt {c : Nat} : ∀ (ds : List Nat) (d : Nat),
    ds.foldl min d < c ↔ d < c ∨ ∃ x ∈ ds, x < c := by
  intro ds
  induction ds with
  | nil => simp
  | cons e es ih =>
    intro d
    rw [List.foldl_cons, ih (min d e)]
    simp only [min_lt_iff, List.mem_cons]
    constructor
    · rintro ((h | h) | ⟨x, hx, hxc⟩)
      · exact Or.inl h
      · exact Or.inr ⟨e, Or.inl rfl, h⟩
      · exact Or.inr ⟨x, Or.inr hx, hxc⟩
    · rintro (h | ⟨x, (rfl | hx), hxc⟩)
      · exact Or.inl (Or.inl h)
      · exact Or.inl (Or.inr hxc)
      · exact Or.inr ⟨x, hx, hxc⟩

/-- Claim C8, amended: the pagination loop takes the cutoff early exit
exactly when the earliest per-tender date — publish date if present, else
deadline (the deadline is a fallback, not a second candidate) — across the
just-parsed batch precedes the cutoff; the batch is still appended, and
everything accumulated so far is returned; otherwise the loop continues
with the batch kept. -/
theorem pagination_cutoff (maxPages cutoff i : Nat) (b : List Tender)
    (rest : List (List Tender)) (hi : i ≤ maxPages) (hb : b ≠ []) :
    (cutoffHit cutoff b = true ↔ ∃ t ∈ b, ∃ d, pubOrDeadline t = some d ∧ d < cutoff) ∧
    (cutoffHit cutoff b = true →
      scrapePages maxPages cutoff i (b :: rest) = b) ∧
    (cutoffHit cutoff b = false →
      scrapePages maxPages cutoff i (b :: rest) =
        b ++ scrapePages maxPages cutoff (i + 1) rest) := by
  have hdates : ∀ x, x ∈ batchDates b ↔ ∃ t ∈ b, pubOrDeadline t = some x := by
    intro x
    simp [batchDates, List.mem_filterMap]
  refine ⟨?_, ?_, ?_⟩
  · unfold cutoffHit
    cases hbd : batchDates b with
    | nil =>
      simp only [Bool.false_eq_true, false_iff]
      rintro ⟨t, ht, d, hd, _⟩
      have : d ∈ batchDates b := (hdates d).mpr ⟨t, ht, hd⟩
      rw [hbd] at this
      exact absurd this (List.not_mem_nil d)
    | cons d ds =>
      rw [decide_eq_true_iff, foldl_min_lt]
      constructor
      · intro h
        have hex : ∃ x ∈ d :: ds, x < cutoff := by
          rcases h with h | ⟨x, hx, hxc⟩
          · exact ⟨d, List.mem_cons_self d ds, h⟩
          · exact ⟨x, List.mem_cons_of_mem d hx, hxc⟩
        obtain ⟨x, hx, hxc⟩ := hex
        rw [← hbd] at hx
        obtain ⟨t, ht, hpd⟩ := (hdates x).mp hx
        exact ⟨t, ht, x, hpd, hxc⟩
      · rintro ⟨t, ht, x, hpd, hxc⟩
        have : x ∈ batchDates b := (hdates x).mpr ⟨t, ht, hpd⟩
        rw [hbd] at this
        rcases this with _ | hx
        · exact Or.inl hxc
        · exact Or.inr ⟨x, by assumption, hxc⟩
  · intro h
    simp only [scrapePages]
    rw [if_neg (Nat.not_lt.mpr hi), if_neg hb, if_pos h]
  · intro h
    simp only [scrapePages]
    rw [if_neg (Nat.not_lt.mpr hi), if_neg hb, if_neg (by simp [h])]

theorem pagination_cutoff_witness :
    (1 : Nat) ≤ 10 ∧ oldBatch ≠ [] ∧ cutoffHit 10 oldBatch = true ∧
    scrapePages 10 10 1 [oldBatch, freshBatch] = oldBatch :=
  ⟨by decide, by decide, by decide,
    (pagination_cutoff 10 10 1 oldBatch [freshBatch] (by decide) (by decide)).2.1
      (by decide)⟩

/-- Claim C8, counterexample to the frozen earliest-of-both-dates reading:
lateBatch holds one tender published at 20 with deadline 2; against
cutoff 10 the earliest of its (publish date, deadline) — the deadline —
precedes the cutoff, yet the loop does not stop there: the cutoff test is
false (the publish date masks the deadline) and the next page is still
fetched and included. -/
theorem pagination_cutoff_counterexample :
    (∃ t ∈ lateBatch, ∃ d, (t.published_date = some d ∨ t.deadline = some d) ∧ d < 10) ∧
    cutoffHit 10 lateBatch = false ∧
    scrapePages 10 10 1 [lateBatch, freshBatch] = lateBatch ++ freshBatch := by
  refine ⟨⟨lateTender, List.mem_cons_self _ _, 2, Or.inr rfl, by decide⟩,
    by decide, by decide⟩

theorem dedupGo_sublist : ∀ (ts : List Tender) (seen : List (List Char)),
    (dedupGo seen ts).Sublist ts := by
  intro ts
  induction ts with
  | nil => intro seen; exact List.Sublist.refl []
  | cons t rest ih =>
    intro seen
    unfold dedupGo
    by_cases h : dedupKey t ∈ seen
    · rw [if_pos h]
      exact (ih seen).cons t
    · rw [if_neg h]
      exact (ih (dedupKey t :: seen)).cons₂ t

theorem mem_dedupGo_key_notin : ∀ (ts : List Tender) (seen : List (List Char))
    (t : Tender), t ∈ dedupGo seen ts → dedupKey t ∉ seen := by
  intro ts
  induction ts with
  | nil => intro seen t ht; exact absurd ht (List.not_mem_nil t)
  | cons u rest ih =>
    intro seen t ht
    unfold dedupGo at ht
    by_cases h : dedupKey u ∈ seen
    · rw [if_pos h] at ht
      exact ih seen t ht
    · rw [if_neg h] at ht
      rcases List.mem_cons.mp ht with rfl | ht'
      · exact h
      · intro hmem
        exact ih (dedupKey u :: seen) t ht' (List.mem_cons_of_mem _ hmem)

theorem dedupGo_pairwise : ∀ (ts : List Tender) (seen : List (List Char)),
    (dedupGo seen ts).Pairwise (fun a b => dedupKey a ≠ dedupKey b) := by
  intro ts
  induction ts with
  | nil => intro seen; exact List.Pairwise.nil
  | cons t rest ih =>
    intro seen
    unfold dedupGo
    by_cases h : dedupKey t ∈ seen
    · rw [if_pos h]
      exact ih seen
    · rw [if_neg h]
      refine List.Pairwise.cons ?_ (ih (dedupKey t :: seen))
      intro b hb
      have := mem_dedupGo_key_notin rest (dedupKey t :: seen) b hb
      intro he
      exact this (he ▸ List.mem_cons_self _ _)

theorem dedupGo_eq_self : ∀ (ts : List Tender) (seen : List (List Char)),
    (∀ t ∈ ts, dedupKey t ∉ seen) →
    ts.Pairwise (fun a b => dedupKey a ≠ dedupKey b) →
    dedupGo seen ts = ts := by
  intro ts
  induction ts with
  | nil => intro seen _ _; rfl
  | cons t rest ih =>
    intro seen hseen hpw
    unfold dedupGo
    rw [if_neg (hseen t (List.mem_cons_self t rest))]
    congr 1
    refine ih (dedupKey t :: seen) ?_ (List.Pairwise.of_cons hpw)
    intro u hu
    rw [List.mem_cons, not_or]
    refine ⟨?_, hseen u (List.mem_cons_of_mem t hu)⟩
    exact fun he => (List.rel_of_pairwise_cons hpw hu) he.symm

/-- Claim C9: merging/deduplication keys on tender_id when non-empty and
title otherwise, keeps the first occurrence (the result is a sublist of the
input, so order is preserved), is idempotent, and collapses two records
with the same non-empty tender_id to the first one. -/
theorem dedup_spec :
    (∀ ts : List Tender, (dedupTenders ts).Sublist ts) ∧
    (∀ ts : List Tender, dedupTenders (dedupTenders ts) = dedupTenders ts) ∧
    (∀ t₁ t₂ : Tender, t₁.tender_id ≠ [] → t₁.tender_id = t₂.tender_id →
      dedupTenders [t₁, t₂] = [t₁]) := by
  refine ⟨?_, ?_, ?_⟩
  · intro ts
    exact dedupGo_sublist ts []
  · intro ts
    refine dedupGo_eq_self (dedupGo [] ts) [] ?_ (dedupGo_pairwise ts [])
    intro t _
    exact List.not_mem_nil _
  · intro t₁ t₂ h₁ h₂
    have hk₁ : dedupKey t₁ = t₁.tender_id := if_pos h₁
    have hk₂ : dedupKey t₂ = t₁.tender_id := by
      rw [dedupKey, ← h₂, if_pos h₁]
    unfold dedupTenders dedupGo
    rw [if_neg (List.not_mem_nil _)]
    unfold dedupGo
    rw [if_pos (by rw [hk₂, ← hk₁]; exact List.mem_cons_self _ _)]
    rfl

theorem dedup_spec_witness :
    tenderA.tender_id ≠ [] ∧ tenderA.tender_id = dupTender.tender_id ∧
    dedupTenders [tenderA, dupTender] = [tenderA] :=
  ⟨by decide, by decide, dedup_spec.2.2 tenderA dupTender (by decide) (by decide)⟩

/-- Claim C10: whenever the cleaned input contains the letter pair "cr"
anywhere (case-insensitive), even inside an unrelated word, parse_inr
multiplies the digit/dot residue by one crore; in particular
"2 concrete slabs" parses as 20,000,000 rupees. -/
theorem parse_inr_cr_substring :
    (∀ s : List Char, s ≠ [] →
      strContains "cr".data (pyLower (cleanInr s)) = true →
      parse_inr s =
        (pyFloatOfDigits (digitsAndDots (cleanInr s))).map fun q => q * 10000000) ∧
    parse_inr "2 concrete slabs".data = some 20000000 := by
  constructor
  · intro s hs h
    exact parse_inr_crore_branch s hs (by rw [h, Bool.or_true])
  · rw [parse_inr_crore_branch _ (by decide) (by decide),
      show digitsAndDots (cleanInr "2 concrete slabs".data) = "2".data from by decide,
      pyFloatOfDigits_eq _ 2 0 0 (by decide) (by decide) (by decide) (by decide)
        (by decide)]
    simp only [Option.map_some']
    norm_num

theorem parse_inr_cr_substring_witness :
    "2 concrete slabs".data ≠ [] ∧
    strContains "cr".data (pyLower (cleanInr "2 concrete slabs".data)) = true ∧
    parse_inr "2 concrete slabs".data =
      (pyFloatOfDigits (digitsAndDots (cleanInr "2 concrete slabs".data))).map
        fun q => q * 10000000 :=
  ⟨by decide, by decide,
    parse_inr_cr_substring.1 "2 concrete slabs".data (by decide) (by decide)⟩

end Gem
